import Mathlib

/-!
Verification development for the audio mixing and signal-processing engine of
`ai_composer` (`src/backend/services/audio_processing.py`, class
`AudioProcessingService`).

Modelling conventions:
* Sample values are elements of an arbitrary `LinearOrderedField K`; theorems
  about the concrete program instantiate `K := ℝ` and pass the transcendental
  constants the source computes (`np.cos`, `np.sin`, `10 ** (db/20)`,
  `np.exp`) as explicit arguments, exactly where the source computes them.
  Python float arithmetic is modelled as exact arithmetic in `ℚ` (for index,
  rate and length computations) and in `K` (for sample values).
* Fallible code is modelled with `Except PyErr`; each `PyErr` constructor is
  documented with the Python exception it stands for.
* `np.random.random` (used by the reverb) is modelled by an explicit stream
  `rng : ℕ → K` passed to the function that samples it.
-/

namespace AIComposer

/-- Python exception kinds raised by the audio-processing module.
Each constructor names the concrete Python exception it models. -/
inductive PyErr : Type
  /-- `ValueError("No tracks provided for mixing")` in `mix_tracks`. -/
  | noTracksProvided : PyErr
  /-- `ValueError("No valid tracks to mix")` in `mix_tracks`; this plays the
  role the spec's error taxonomy calls `NoValidTracksError`. -/
  | noValidTracks : PyErr
  /-- `ZeroDivisionError`, e.g. from `ratio = target_sample_rate /
  original_sample_rate` when the original rate is 0. -/
  | zeroDivisionError : PyErr
  /-- A numpy `ValueError` (negative array dimension, empty sample-point
  array in `np.interp`, zero-size reduction in `np.max`, or a broadcast
  shape mismatch). -/
  | valueError : PyErr
deriving DecidableEq, Repr

/-- Python `int()` applied to a real number: truncation toward zero
(`int(0.9) = 0`, `int(-0.9) = 0`).  The source's float arithmetic is
modelled exactly in `ℚ`. -/
def pyInt (q : ℚ) : ℤ :=
  if 0 ≤ q then ⌊q⌋ else -⌊-q⌋

variable {K : Type} [LinearOrderedField K]

/-- `np.linspace(a, b, n)`: `n` evenly spaced points from `a` to `b`
inclusive.  `np.linspace(a, b, 1) = [a]` and `np.linspace(a, b, 0) = []`,
matching numpy. -/
def linspace (a b : K) (n : ℕ) : List K :=
  if n = 0 then []
  else if n = 1 then [a]
  else (List.range n).map (fun i : ℕ => a + (i : K) * (b - a) / ((n : K) - 1))

/-- Helper for `npInterp`: linear interpolation of the points
`(0, p), (1, y₁), (2, y₂), …` at abscissa `x`, clamping to the left of 0
(as `np.interp` clamps outside the data range). -/
def interpFrom (p : K) : List K → K → K
  | [], _ => p
  | y :: ys, x =>
    if x ≤ 0 then p
    else if x ≤ 1 then p + x * (y - p)
    else interpFrom y ys (x - 1)

/-- `np.interp(x, np.arange(len(data)), data)` for a single abscissa `x`:
piecewise-linear interpolation of `data` on the integer grid `0 … len-1`,
clamped at both ends.  The empty-`data` case is unreachable here because
`resample_audio` raises (`np.interp` rejects an empty sample-point array)
before interpolating an empty channel. -/
def npInterp (data : List K) (x : K) : K :=
  match data with
  | [] => 0
  | d :: ds => interpFrom d ds x

/-- One channel of `resample_audio`'s core:
`np.interp(np.linspace(0, len(data)-1, n), np.arange(len(data)), data)`. -/
def resampleMono (data : List K) (n : ℕ) : List K :=
  (linspace 0 ((data.length : K) - 1) n).map (npInterp data)

/-- An audio buffer: 1-D (mono) or 2-D with two columns (stereo), the two
channel shapes this engine produces and consumes (spec §3: the channel
dimension is always 1 or 2). -/
inductive Buf (K : Type) : Type
  | mono (xs : List K) : Buf K
  | stereo (xs : List (K × K)) : Buf K

/-- Frame count of a buffer (`len(audio_data)` / `audio.shape[0]`). -/
def Buf.frames : Buf K → ℕ
  | .mono xs => xs.length
  | .stereo xs => xs.length

/-- Channel count of a buffer (1 for 1-D arrays, `shape[1]` otherwise). -/
def Buf.channels : Buf K → ℕ
  | .mono _ => 1
  | .stereo _ => 2

/-- `AudioProcessingService.resample_audio(audio_data, original_sample_rate,
target_sample_rate)` (audio_processing.py lines 84–135).

* equal rates: the input is returned unchanged — the source performs no
  validation of the rates, so this branch is taken even for zero or
  negative rates;
* `ratio = target_sample_rate / original_sample_rate` raises
  `ZeroDivisionError` when the original rate is 0;
* `new_length = int(len(audio_data) * ratio)` truncates toward zero;
  a negative `new_length` makes `np.zeros` / `np.linspace` raise a
  `ValueError`;
* an empty input with distinct rates makes `np.interp` raise a
  `ValueError` (empty array of sample points);
* otherwise each channel is resampled by linear interpolation on the grid
  `np.linspace(0, old_length - 1, new_length)`. -/
def resample_audio (b : Buf K) (original_sample_rate target_sample_rate : ℤ) :
    Except PyErr (Buf K) :=
  if original_sample_rate = target_sample_rate then .ok b
  else if original_sample_rate = 0 then .error .zeroDivisionError
  else
    let newLen : ℤ :=
      pyInt ((b.frames : ℚ) * (target_sample_rate : ℚ) / (original_sample_rate : ℚ))
    if newLen < 0 then .error .valueError
    else if b.frames = 0 then .error .valueError
    else
      match b with
      | .mono xs => .ok (.mono (resampleMono xs newLen.toNat))
      | .stereo xs =>
        .ok (.stereo ((resampleMono (xs.map Prod.fst) newLen.toNat).zip
          (resampleMono (xs.map Prod.snd) newLen.toNat)))

/-- `np.max(np.abs(xs))` over a 1-D array, as a fold with neutral `0`
(the source only uses the peak through `peak == 0` tests and quotients,
and every buffer it is applied to is nonempty on the non-error path, where
the fold agrees with numpy's reduction). -/
def listPeak (xs : List K) : K :=
  xs.foldl (fun m x => max m |x|) 0

/-- `np.max(np.abs(xs))` over a 2-D stereo array. -/
def stereoPeak (xs : List (K × K)) : K :=
  xs.foldl (fun m f => max (max m |f.1|) |f.2|) 0

/-- Core of `normalize_audio` on a mono channel list, parameterized by the
already-converted linear target `target_linear = 10 ** (target_db / 20)`:
`np.max` raises a `ValueError` on a zero-size array; a silent buffer is
returned unchanged; otherwise every sample is scaled by
`gain = target_linear / peak`. -/
def normalizeList (xs : List K) (target_linear : K) : Except PyErr (List K) :=
  if xs.length = 0 then .error .valueError
  else .ok (if listPeak xs = 0 then xs
    else xs.map (fun x => x * (target_linear / listPeak xs)))

/-- Core of `normalize_audio` on a stereo array. -/
def normalizeStereo (xs : List (K × K)) (target_linear : K) :
    Except PyErr (List (K × K)) :=
  if xs.length = 0 then .error .valueError
  else .ok (if stereoPeak xs = 0 then xs
    else xs.map (fun f => (f.1 * (target_linear / stereoPeak xs),
      f.2 * (target_linear / stereoPeak xs))))

/-- `AudioProcessingService.normalize_audio(audio_data, target_db)`
(audio_processing.py lines 137–170), parameterized by
`target_linear = 10 ** (target_db / 20)` — the source computes this
conversion inline; theorems about the program pass `(10 : ℝ) ^ (db / 20)`
here. -/
def normalize_audio (b : Buf K) (target_linear : K) : Except PyErr (Buf K) :=
  match b with
  | .mono xs => (normalizeList xs target_linear).map Buf.mono
  | .stereo xs => (normalizeStereo xs target_linear).map Buf.stereo

/-- `np.max(np.abs(audio_data))` over either buffer shape — the peak the
source computes at the head of `normalize_audio` (line 154). -/
def bufPeak : Buf K → K
  | .mono xs => listPeak xs
  | .stereo xs => stereoPeak xs

/-- Modelled from the spec's words (§4.1): the claimed canonical policy
`new_length = round(old_length * ratio)`.  This definition exists only to
compare the spec's claim against the source's truncating
`new_length = int(old_length * ratio)`; the source itself is modelled in
`resample_audio`. -/
def specNewLength (old_length : ℕ) (from_rate to_rate : ℤ) : ℤ :=
  round ((old_length : ℚ) * (to_rate : ℚ) / (from_rate : ℚ))

/-- A track descriptor as consumed by `mix_tracks`, with the fields the
source reads from the track dict and from the audio file:
`muted`/`solo` flags, `filePresent` (whether `file_path` is set and
`os.path.exists` holds), the decoded audio and its file sample rate, and
the raw `volume` (percentage, default 100) and `pan` (−100…100, default 0)
values. -/
structure Track (K : Type) : Type where
  muted : Bool
  filePresent : Bool
  audio : Buf K
  rate : ℕ
  volume : ℚ
  pan : ℚ
  solo : Bool

/-- First pass of `mix_tracks` (lines 198–222): the tracks that are not
muted and whose backing file exists, in caller order.  These are exactly
the entries collected into `track_audio_data`. -/
def surviving (ts : List (Track K)) : List (Track K) :=
  ts.filter (fun t => !t.muted && t.filePresent)

/-- `max_sample_rate` after the first pass: the maximum file sample rate
over all surviving tracks (accumulated from 0), before any solo filtering. -/
def maxRate (ts : List (Track K)) : ℕ :=
  (surviving ts).foldl (fun m t => max m t.rate) 0

/-- `max_length` after the first pass: the maximum duration in seconds
(`len(audio) / sample_rate`) over all surviving tracks (accumulated from
0), before any solo filtering. -/
def maxDur (ts : List (Track K)) : ℚ :=
  (surviving ts).foldl (fun m t => max m ((t.audio.frames : ℚ) / (t.rate : ℚ))) 0

/-- `solo_active = any(track['solo'] for track in track_audio_data)`. -/
def soloActive (ts : List (Track K)) : Bool :=
  (surviving ts).any (fun t => t.solo)

/-- `output_length = int(max_length * max_sample_rate)` — note the Python
`int()` truncation. -/
def outputLen (ts : List (Track K)) : ℕ :=
  (pyInt (maxDur ts * (maxRate ts : ℚ))).toNat

/-- The tracks processed by the second pass of `mix_tracks`: surviving
tracks, further restricted to soloed ones when any track is soloed
(line 239: `if solo_active and not track_data['solo']: continue`). -/
def contributors (ts : List (Track K)) : List (Track K) :=
  (surviving ts).filter (fun t => !soloActive ts || t.solo)

/-- Modelled from the spec's words (§4.3 step 6): the output rate the
CLAIM says `mix_tracks` uses — the maximum sample rate over the surviving
tracks AFTER the solo filter.  Exists only for comparison: the source
computes `max_sample_rate` in its first pass, before any solo filtering. -/
def specOutputRate (ts : List (Track K)) : ℕ :=
  (contributors ts).foldl (fun m t => max m t.rate) 0

/-- `np.column_stack((audio, audio))` for mono input; stereo input is
passed through (lines 253–255). -/
def toStereo : Buf K → List (K × K)
  | .mono xs => xs.map (fun x => (x, x))
  | .stereo xs => xs

/-- The two in-place column multiplications `audio[:, 0] *= pan_left`,
`audio[:, 1] *= pan_right` (lines 263–265). -/
def applyPan (pan_left pan_right : K) (xs : List (K × K)) : List (K × K) :=
  xs.map (fun f => (f.1 * pan_left, f.2 * pan_right))

/-- The pan stage of the second pass (lines 257–265): skipped when
`pan == 0`, otherwise equal-power gains `gl pan`, `gr pan` are applied,
where the program instantiates `gl = fun p => cos((p+1)·π/4)` and
`gr = fun p => sin((p+1)·π/4)`. -/
def panStage (gl gr : ℚ → K) (pan : ℚ) (xs : List (K × K)) : List (K × K) :=
  if pan ≠ 0 then applyPan (gl pan) (gr pan) xs else xs

/-- `audio *= volume` (line 268). -/
def scaleFrames (v : K) (xs : List (K × K)) : List (K × K) :=
  xs.map (fun f => (f.1 * v, f.2 * v))

/-- Length reconciliation (lines 270–278): shorter tracks are zero-padded
at the end, longer tracks are truncated, to exactly `n` frames. -/
def fitLength (n : ℕ) (xs : List (K × K)) : List (K × K) :=
  if xs.length < n then xs ++ List.replicate (n - xs.length) (0, 0)
  else xs.take n

/-- The processing of one contributing track in the second pass of
`mix_tracks` (lines 242–278): resample to `max_sample_rate` if needed
(a step that can itself raise), expand mono to stereo, apply the pan
stage at `pan = raw_pan / 100`, apply the volume factor `volume / 100`
(the division to a factor happens at collection time, line 219), then pad
or trim to the output length. -/
def contribution (gl gr : ℚ → K) (targetRate n : ℕ) (t : Track K) :
    Except PyErr (List (K × K)) := do
  let audio ← if t.rate ≠ targetRate then
      resample_audio t.audio (t.rate : ℤ) (targetRate : ℤ)
    else .ok t.audio
  let panned := panStage gl gr (t.pan / 100) (toStereo audio)
  let scaled := scaleFrames (((t.volume / 100 : ℚ) : K)) panned
  .ok (fitLength n scaled)

/-- The contributions of all second-pass tracks, in caller order, raising
the first error encountered (the source's `for` loop propagates any
exception). -/
def collectContribs (gl gr : ℚ → K) (targetRate n : ℕ) :
    List (Track K) → Except PyErr (List (List (K × K)))
  | [] => .ok []
  | t :: ts => do
    let c ← contribution gl gr targetRate n t
    let cs ← collectContribs gl gr targetRate n ts
    .ok (c :: cs)

/-- `mixed_audio += audio` for stereo frame lists of equal length. -/
def sumFrames (acc xs : List (K × K)) : List (K × K) :=
  List.zipWith (fun a b => (a.1 + b.1, a.2 + b.2)) acc xs

/-- `AudioProcessingService.mix_tracks(tracks)` (audio_processing.py lines
172–294), parameterized by the pan gain functions `gl`, `gr` (the source
instantiates `gl p = np.cos((p+1)·π/4)`, `gr p = np.sin((p+1)·π/4)`) and
by `target_linear = 10 ** (-3/20)` for the final default normalization.

Steps: raise on an empty track list; collect unmuted tracks with existing
files (first pass) and raise if none survive; compute `max_sample_rate`,
`max_length` and `output_length` over ALL surviving tracks (the solo
filter is applied only in the second pass); accumulate the second-pass
contributions into a zero stereo buffer; normalize; return the buffer and
`max_sample_rate`. -/
def mix_tracks (gl gr : ℚ → K) (target_linear : K) (ts : List (Track K)) :
    Except PyErr (Buf K × ℕ) :=
  if ts.isEmpty then .error .noTracksProvided
  else if (surviving ts).isEmpty then .error .noValidTracks
  else do
    let cs ← collectContribs gl gr (maxRate ts) (outputLen ts) (contributors ts)
    let mixed := cs.foldl sumFrames (List.replicate (outputLen ts) ((0 : K), (0 : K)))
    let norm ← normalize_audio (Buf.stereo mixed) target_linear
    .ok (norm, maxRate ts)

/-- `int(duration * sample_rate)` for a fade edge (lines 373–374). -/
def fadeSamples (duration : ℚ) (rate : ℕ) : ℤ :=
  pyInt (duration * (rate : ℚ))

/-- In-place `result[:n] *= curve` on one channel: the first
`curve.length` samples are multiplied elementwise, the rest kept. -/
def mulHead (curve xs : List K) : List K :=
  List.zipWith (fun x g => x * g) xs curve ++ xs.drop curve.length

/-- In-place `result[-n:] *= curve` on one channel. -/
def mulTail (curve xs : List K) : List K :=
  xs.take (xs.length - curve.length) ++
    List.zipWith (fun x g => x * g) (xs.drop (xs.length - curve.length)) curve

/-- `mulHead` on a stereo buffer: the source loops the same curve over
both channels (lines 383–386). -/
def mulHeadStereo (curve : List K) (xs : List (K × K)) : List (K × K) :=
  List.zipWith (fun f g => (f.1 * g, f.2 * g)) xs curve ++ xs.drop curve.length

/-- `mulTail` on a stereo buffer. -/
def mulTailStereo (curve : List K) (xs : List (K × K)) : List (K × K) :=
  xs.take (xs.length - curve.length) ++
    List.zipWith (fun f g => (f.1 * g, f.2 * g))
      (xs.drop (xs.length - curve.length)) curve

/-- The fade-in block of `apply_fade` (lines 380–389): skipped unless
`fade_in_samples > 0`; the in-place multiply `result[:n] *= curve`
broadcasts only when `n ≤ len(result)` or `n == 1`, otherwise numpy
raises a `ValueError` (shape mismatch) — fades longer than the buffer are
NOT clamped. -/
def fadeInStage (n : ℤ) (b : Buf K) : Except PyErr (Buf K) :=
  if n ≤ 0 then .ok b
  else if n.toNat ≤ b.frames ∨ n = 1 then
    .ok (match b with
      | .mono xs => .mono (mulHead (linspace 0 1 n.toNat) xs)
      | .stereo xs => .stereo (mulHeadStereo (linspace 0 1 n.toNat) xs))
  else .error .valueError

/-- The fade-out block of `apply_fade` (lines 392–401), symmetric to
`fadeInStage` with the reversed ramp applied to the last `n` frames. -/
def fadeOutStage (n : ℤ) (b : Buf K) : Except PyErr (Buf K) :=
  if n ≤ 0 then .ok b
  else if n.toNat ≤ b.frames ∨ n = 1 then
    .ok (match b with
      | .mono xs => .mono (mulTail (linspace 1 0 n.toNat) xs)
      | .stereo xs => .stereo (mulTailStereo (linspace 1 0 n.toNat) xs))
  else .error .valueError

/-- `AudioProcessingService.apply_fade(audio_data, fade_in_duration,
fade_out_duration, sample_rate)` (lines 352–407): the input is copied,
then the fade-in and fade-out blocks run in order on the copy. -/
def apply_fade (b : Buf K) (fade_in_duration fade_out_duration : ℚ)
    (sample_rate : ℕ) : Except PyErr (Buf K) := do
  let b1 ← fadeInStage (fadeSamples fade_in_duration sample_rate) b
  fadeOutStage (fadeSamples fade_out_duration sample_rate) b1

/-- `delay_samples = int(time_ms * sample_rate / 1000)` with the HARDCODED
`sample_rate = 44100` of `_apply_simple_delay` (lines 639–640); the
function receives no sample-rate argument. -/
def delaySamples (time_ms : ℚ) : ℤ :=
  pyInt (time_ms * 44100 / 1000)

/-- `delayed = np.zeros_like(audio); delayed[ds:] = audio[:-ds]`
(lines 668–669): the input shifted right by `ds` samples with a zero head,
same length. -/
def shiftZero (ds : ℕ) (xs : List K) : List K :=
  List.replicate (min ds xs.length) 0 ++ xs.take (xs.length - ds)

/-- `delayed[idx:] += fa * audio[:-idx]` (line 680). -/
def addAt (idx : ℕ) (fa : K) (audio delayed : List K) : List K :=
  delayed.take idx ++
    List.zipWith (fun d a => d + fa * a) (delayed.drop idx)
      (audio.take (audio.length - idx))

/-- The feedback loop of `_apply_simple_delay` (lines 673–680):
`for i in range(5)` — modelled with `fuel` iterations remaining, starting
at `fuel = 5`, `i = 0` — breaking when `feedback ** (i+1) < 0.01`, and
adding the `i`-th echo at offset `delay_samples * (i+2)` when that offset
is inside the buffer (otherwise the iteration does nothing but the loop
continues). -/
def echoLoop (audio : List K) (ds : ℕ) (feedback : K) :
    ℕ → ℕ → List K → List K
  | 0, _, delayed => delayed
  | fuel + 1, i, delayed =>
    if feedback ^ (i + 1) < 1 / 100 then delayed
    else
      echoLoop audio ds feedback fuel (i + 1)
        (if ds * (i + 2) < delayed.length then
          addAt (ds * (i + 2)) (feedback ^ (i + 1)) audio delayed
        else delayed)

/-- `AudioProcessingService._apply_simple_delay(audio, time_ms, feedback,
wet)` on a mono buffer (lines 635–682; the stereo path runs the same code
per channel).  Returns the input unchanged when `delay_samples <= 0`;
otherwise blends `(1-wet)*audio + wet*delayed` where `delayed` is the
shifted signal plus up to 5 feedback echoes. -/
def applySimpleDelayMono (audio : List K) (time_ms : ℚ) (feedback wet : K) :
    List K :=
  let ds := delaySamples time_ms
  if ds ≤ 0 then audio
  else
    List.zipWith (fun a d => (1 - wet) * a + wet * d) audio
      (echoLoop audio ds.toNat feedback 5 0 (shiftZero ds.toNat audio))

/-- `np.convolve(a, v)` (mode `'full'`): output index `n` holds
`∑ k, a[k] * v[n-k]`, length `len(a) + len(v) - 1`. -/
def convFull (a v : List K) : List K :=
  (List.range (a.length + v.length - 1)).map (fun n : ℕ =>
    ∑ k ∈ Finset.range a.length,
      a.getD k 0 * (if k ≤ n then v.getD (n - k) 0 else 0))

/-- `np.convolve(a, v, mode='same')`: the centered `max(len(a), len(v))`
slice of the full convolution, dropping `(min(len(a), len(v)) - 1) // 2`
leading entries. -/
def convSame (a v : List K) : List K :=
  ((convFull a v).drop ((min a.length v.length - 1) / 2)).take
    (max a.length v.length)

/-- `AudioProcessingService._apply_simple_reverb(audio, decay, wet)` on a
mono buffer (lines 614–633; the stereo path runs per channel), with the
random draws of `np.random.random(impulse_length)` supplied as the stream
`rng` and `np.exp` supplied as `expf`:

* `impulse_length = int(decay * 48000)`; a negative length makes
  `np.random.random` raise a `ValueError`;
* `impulse = rng * exp(-linspace(0, 10, impulse_length))`, normalized by
  its sum;
* `np.convolve` raises a `ValueError` when either operand is empty;
* the result is the `(1-wet)·dry + wet·(convolution truncated to the
  input length)` blend. -/
def applySimpleReverbMono (audio : List K) (decay : ℚ) (wet : K)
    (expf : K → K) (rng : ℕ → K) : Except PyErr (List K) :=
  let nz := pyInt (decay * 48000)
  if nz < 0 then .error .valueError
  else
    let grid := linspace (0 : K) 10 nz.toNat
    let raw := (List.range nz.toNat).map (fun j : ℕ => rng j * expf (-(grid.getD j 0)))
    let impulse := raw.map (fun x => x / raw.sum)
    if nz.toNat = 0 ∨ audio.length = 0 then .error .valueError
    else
      .ok (List.zipWith (fun a r => (1 - wet) * a + wet * r) audio
        ((convFull audio impulse).take audio.length))

/-- `AudioProcessingService._apply_low_shelf(audio, gain)` (lines 581–589):
moving-average low-pass (window 10), additive gain correction. -/
def lowShelf (audio : List K) (gain : K) : List K :=
  List.zipWith (fun a l => a + l * (gain - 1)) audio
    (convSame audio (List.replicate 10 ((1 : K) / 10)))

/-- `AudioProcessingService._apply_mid_band(audio, gain)` (lines 591–601).
Note the source's kernel `np.ones(window_size*2)/window_size*2` divides by
`window_size` FIRST and then multiplies by 2, so each of its 10 entries is
`(1/5)*2 = 2/5`; this is reproduced verbatim. -/
def midBand (audio : List K) (gain : K) : List K :=
  let low := convSame audio (List.replicate 5 ((1 : K) / 5))
  let high := List.zipWith (fun a c => a - c) audio
    (convSame audio (List.replicate 10 ((1 : K) / 5 * 2)))
  let amLow := List.zipWith (fun a l => a - l) audio low
  let mid := List.zipWith (fun x h => x - h) amLow high
  List.zipWith (fun a m => a + m * (gain - 1)) audio mid

/-- `AudioProcessingService._apply_high_shelf(audio, gain)`
(lines 603–612). -/
def highShelf (audio : List K) (gain : K) : List K :=
  let low := convSame audio (List.replicate 10 ((1 : K) / 10))
  let high := List.zipWith (fun a l => a - l) audio low
  List.zipWith (fun a h => a + h * (gain - 1)) audio high

/-- The `eq` sub-dictionary of the effects configuration: optional
low/mid/high band gains in dB. -/
structure EqCfg (K : Type) : Type where
  low : Option K
  mid : Option K
  high : Option K

/-- The effects configuration consumed by `apply_simple_effects`
(spec §6): every stage optional; reverb carries `(decay, wet)`, delay
carries `(time_ms, feedback, wet)`.  The dict-lookup defaults of the
source (`decay=0.5, wet=0.3`, `time=250, feedback=0.3, wet=0.3`) are
resolved by the caller of this model. -/
structure EffectsCfg (K : Type) : Type where
  eq : Option (EqCfg K)
  reverb : Option (ℚ × K)
  delay : Option (ℚ × K × K)
  normalize : Bool

/-- One EQ band of `apply_simple_effects` (lines 514–550): skipped when
the band key is absent, otherwise the band filter is applied with
`gain = 10 ** (db / 20)` (via `pow10`).  A buffer shorter than the
moving-average window makes the numpy broadcast in the band filter raise
a `ValueError`. -/
def bandStage (f : List K → K → List K) (gain : Option K) (pow10 : K → K)
    (audio : List K) : Except PyErr (List K) :=
  match gain with
  | none => .ok audio
  | some db =>
    if audio.length < 10 then .error .valueError
    else .ok (f audio (pow10 (db / 20)))

/-- `AudioProcessingService.apply_simple_effects(audio_data, effects)` on a
mono buffer (lines 494–579): EQ bands (low, mid, high, in that order),
then reverb (guarded by `decay > 0 and wet > 0`), then delay (guarded by
`time_ms > 0 and wet > 0`), then optional final normalization with the
default `-3` dB target.  `pow10` stands for `fun x => 10 ** x`, `expf` for
`np.exp`, and `rng` for the `np.random.random` stream consumed by the
reverb — the ONLY stage that reads `rng`. -/
def applySimpleEffectsMono (pow10 expf : K → K) (rng : ℕ → K)
    (cfg : EffectsCfg K) (audio : List K) : Except PyErr (List K) := do
  let r1 ← match cfg.eq with
    | none => Except.ok audio
    | some e => do
      let a1 ← bandStage lowShelf e.low pow10 audio
      let a2 ← bandStage midBand e.mid pow10 a1
      bandStage highShelf e.high pow10 a2
  let r2 ← match cfg.reverb with
    | none => Except.ok r1
    | some dw =>
      if 0 < dw.1 ∧ 0 < dw.2 then applySimpleReverbMono r1 dw.1 dw.2 expf rng
      else Except.ok r1
  let r3 := match cfg.delay with
    | none => r2
    | some tfw =>
      if 0 < tfw.1 ∧ 0 < tfw.2.2 then applySimpleDelayMono r2 tfw.1 tfw.2.1 tfw.2.2
      else r2
  if cfg.normalize then normalizeList r3 (pow10 (-3 / 20)) else .ok r3

/-- The reverb stage of `apply_simple_effects` does nothing: either no
`reverb` key is present, or its guard `decay > 0 and wet > 0` fails.
Under this condition the chain never reads the random stream. -/
def reverbInactive (cfg : EffectsCfg K) : Prop :=
  ∀ d w, cfg.reverb = some (d, w) → ¬(0 < d ∧ 0 < w)

/-!  ## Helper lemmas  -/

theorem foldl_max_le_init {α β : Type} [LinearOrder α] (g : β → α) :
    ∀ (l : List β) (a : α), a ≤ l.foldl (fun m x => max m (g x)) a
  | [], _ => le_refl _
  | x :: l, a => le_trans (le_max_left a (g x)) (foldl_max_le_init g l _)

theorem foldl_max_mem_le {α β : Type} [LinearOrder α] (g : β → α)
    (l : List β) (x : β) (hx : x ∈ l) (a : α) :
    g x ≤ l.foldl (fun m x => max m (g x)) a := by
  induction l generalizing a with
  | nil => cases hx
  | cons y l ih =>
    rcases List.mem_cons.mp hx with h | h
    · subst h
      exact le_trans (le_max_right a (g x)) (foldl_max_le_init g l _)
    · exact ih h _

theorem linspace_length (a b : K) (n : ℕ) : (linspace a b n).length = n := by
  unfold linspace
  split
  · simp_all
  · split
    · simp_all
    · rw [List.length_map, List.length_range]

theorem resampleMono_length (data : List K) (n : ℕ) :
    (resampleMono data n).length = n := by
  simp [resampleMono, linspace_length]

theorem fitLength_length (n : ℕ) (xs : List (K × K)) :
    (fitLength n xs).length = n := by
  unfold fitLength
  split
  · simp only [List.length_append, List.length_replicate]
    omega
  · simp only [List.length_take]
    omega

theorem pyInt_nonneg {q : ℚ} (h : 0 ≤ q) : 0 ≤ pyInt q := by
  unfold pyInt
  rw [if_pos h]
  exact Int.floor_nonneg.mpr h

theorem le_pyInt_toNat {q : ℚ} {m : ℕ} (h : (m : ℚ) ≤ q) : m ≤ (pyInt q).toNat := by
  have h0 : (0 : ℚ) ≤ q := le_trans (Nat.cast_nonneg m) h
  unfold pyInt
  rw [if_pos h0]
  have hm : (m : ℤ) ≤ ⌊q⌋ := Int.le_floor.mpr (by exact_mod_cast h)
  omega

theorem getD_append_left {α : Type} (l l' : List α) (d : α) (j : ℕ)
    (h : j < l.length) : (l ++ l').getD j d = l.getD j d := by
  induction l generalizing j with
  | nil => simp at h
  | cons x xs ih =>
    cases j with
    | zero => rfl
    | succ j => simpa [List.getD_cons_succ] using ih j (by simpa using h)

theorem getD_take_of_lt {α : Type} (l : List α) (n j : ℕ) (d : α) (h : j < n) :
    (l.take n).getD j d = l.getD j d := by
  induction l generalizing n j with
  | nil => simp
  | cons x xs ih =>
    cases n with
    | zero => omega
    | succ n =>
      cases j with
      | zero => rfl
      | succ j => simpa [List.getD_cons_succ] using ih n j (by omega)

theorem getD_replicate_self {α : Type} (a d : α) (n j : ℕ) (h : j < n) :
    (List.replicate n a).getD j d = a := by
  induction n generalizing j with
  | zero => omega
  | succ n ih =>
    cases j with
    | zero => rfl
    | succ j => simpa [List.replicate_succ, List.getD_cons_succ] using ih j (by omega)

theorem getD_zipWith {α β γ : Type} (f : α → β → γ) (l : List α) (l' : List β)
    (d : γ) (e : α) (e2 : β) (j : ℕ) (h : j < l.length) (h2 : j < l'.length) :
    (List.zipWith f l l').getD j d = f (l.getD j e) (l'.getD j e2) := by
  induction l generalizing l' j with
  | nil => simp at h
  | cons x xs ih =>
    cases l' with
    | nil => simp at h2
    | cons y ys =>
      cases j with
      | zero => rfl
      | succ j =>
        simpa [List.getD_cons_succ] using
          ih ys j (by simpa using h) (by simpa using h2)

theorem shiftZero_length (ds : ℕ) (xs : List K) :
    (shiftZero ds xs).length = xs.length := by
  simp only [shiftZero, List.length_append, List.length_replicate, List.length_take]
  omega

theorem addAt_length (idx : ℕ) (fa : K) (audio delayed : List K)
    (hlen : audio.length = delayed.length) (hidx : idx ≤ delayed.length) :
    (addAt idx fa audio delayed).length = delayed.length := by
  simp only [addAt, List.length_append, List.length_take, List.length_drop,
    List.length_zipWith]
  omega

theorem addAt_getD_lt (idx : ℕ) (fa : K) (audio delayed : List K) (j : ℕ)
    (hj : j < idx) (hidx : idx ≤ delayed.length) :
    (addAt idx fa audio delayed).getD j 0 = delayed.getD j 0 := by
  unfold addAt
  rw [getD_append_left _ _ _ _ (by simp only [List.length_take]; omega)]
  exact getD_take_of_lt delayed idx j 0 hj

theorem echoLoop_length (audio : List K) (ds : ℕ) (fb : K) :
    ∀ (fuel i : ℕ) (delayed : List K), audio.length = delayed.length →
      (echoLoop audio ds fb fuel i delayed).length = delayed.length := by
  intro fuel
  induction fuel with
  | zero => intro i delayed _; rfl
  | succ fuel ih =>
    intro i delayed h
    rw [echoLoop]
    split
    · rfl
    · by_cases hc : ds * (i + 2) < delayed.length
      · rw [if_pos hc, ih (i + 1) _ (by rw [addAt_length _ _ _ _ h hc.le]; exact h),
          addAt_length _ _ _ _ h hc.le]
      · rw [if_neg hc, ih (i + 1) _ h]

theorem echoLoop_getD (audio : List K) (ds : ℕ) (fb : K) :
    ∀ (fuel i : ℕ) (delayed : List K) (j : ℕ), j < ds * 2 →
      (echoLoop audio ds fb fuel i delayed).getD j 0 = delayed.getD j 0 := by
  intro fuel
  induction fuel with
  | zero => intro i delayed j _; rfl
  | succ fuel ih =>
    intro i delayed j hj
    rw [echoLoop]
    split
    · rfl
    · rw [ih (i + 1) _ j hj]
      by_cases hc : ds * (i + 2) < delayed.length
      · rw [if_pos hc]
        exact addAt_getD_lt _ _ _ _ _
          (lt_of_lt_of_le hj (Nat.mul_le_mul_left ds (by omega))) hc.le
      · rw [if_neg hc]

theorem shiftZero_getD_zero (ds : ℕ) (xs : List K) (j : ℕ)
    (hj1 : j < ds) (hj2 : j < xs.length) : (shiftZero ds xs).getD j 0 = 0 := by
  unfold shiftZero
  rw [getD_append_left _ _ _ _ (by simp only [List.length_replicate]; omega)]
  exact getD_replicate_self _ _ _ _ (by omega)

/-!  ## Claims -/

/-- Claim C5, counterexample: `resample_audio` on a 1-frame mono buffer
from rate 3 to rate 2 returns an EMPTY buffer (`int(1 * 2/3) = 0`),
whereas the claimed policy `round(old_length * to_rate / from_rate)`
gives 1 frame — the frame count is truncated, not rounded. -/
theorem claim_C5_counterexample :
    (resample_audio (Buf.mono [(1 : ℝ)]) 3 2).map Buf.frames = .ok 0 ∧
    specNewLength 1 3 2 = 1 := by
  constructor
  · norm_num [resample_audio, pyInt, resampleMono, linspace, Buf.frames, Except.map]
  · unfold specNewLength
    rw [round_eq]
    norm_num

/-- Claim C5, amended: for positive distinct rates and a nonempty buffer,
`resample_audio` returns a buffer of
`int(old_length * to_rate / from_rate)` frames — Python `int()`
truncation, not `round` — with the channel count preserved, for mono and
stereo buffers alike. -/
theorem claim_C5_amended (b : Buf K) (f t : ℤ)
    (hf : 0 < f) (ht : 0 < t) (hne : f ≠ t) (hfr : 0 < b.frames) :
    (resample_audio b f t).map Buf.frames =
      .ok (pyInt ((b.frames : ℚ) * (t : ℚ) / (f : ℚ))).toNat ∧
    (resample_audio b f t).map Buf.channels = .ok b.channels := by
  have hf' : (0 : ℚ) < (f : ℚ) := by exact_mod_cast hf
  have ht' : (0 : ℚ) < (t : ℚ) := by exact_mod_cast ht
  have hq : (0 : ℚ) ≤ (b.frames : ℚ) * (t : ℚ) / (f : ℚ) :=
    div_nonneg (mul_nonneg (Nat.cast_nonneg _) ht'.le) hf'.le
  have hpy : ¬ (pyInt ((b.frames : ℚ) * (t : ℚ) / (f : ℚ)) < 0) :=
    not_lt.mpr (pyInt_nonneg hq)
  cases b with
  | mono xs =>
    unfold resample_audio
    rw [if_neg hne, if_neg hf.ne']
    simp only [Buf.frames] at hpy hfr ⊢
    rw [if_neg hpy, if_neg hfr.ne']
    simp [Except.map, Buf.frames, Buf.channels, resampleMono_length]
  | stereo xs =>
    unfold resample_audio
    rw [if_neg hne, if_neg hf.ne']
    simp only [Buf.frames] at hpy hfr ⊢
    rw [if_neg hpy, if_neg hfr.ne']
    simp [Except.map, Buf.frames, Buf.channels, resampleMono_length, List.length_zip]

/-- Claim C5, witness for the amended theorem at a concrete input:
a 2-frame mono buffer resampled from rate 2 to rate 3 has
`int(2 * 3/2) = 3` frames and stays mono. -/
theorem claim_C5_witness :
    (resample_audio (Buf.mono [(1 : ℚ), 2]) 2 3).map Buf.frames =
      .ok (pyInt (((Buf.mono [(1 : ℚ), 2]).frames : ℚ) * ((3 : ℤ) : ℚ) / ((2 : ℤ) : ℚ))).toNat ∧
    (resample_audio (Buf.mono [(1 : ℚ), 2]) 2 3).map Buf.channels =
      .ok (Buf.mono [(1 : ℚ), 2]).channels :=
  claim_C5_amended (Buf.mono [(1 : ℚ), 2]) 2 3 (by norm_num) (by norm_num)
    (by norm_num) (by norm_num [Buf.frames])

/-- Claim C6, counterexample: `resample_audio` with the nonpositive rates
`from_rate = to_rate = 0` does not fail at all — the equal-rates branch
returns the buffer unchanged before any validation could run, so no
`InvalidInputError` (nor any error) is raised. -/
theorem claim_C6_counterexample :
    resample_audio (Buf.mono [(1 : ℝ)]) 0 0 = .ok (Buf.mono [(1 : ℝ)]) := rfl

/-- Claim C6, amended: `resample_audio` performs no rate validation and
never raises the spec's `InvalidInputError`: equal rates (zero or
negative included) return the input unchanged, and distinct rates with
`from_rate = 0` raise `ZeroDivisionError` (from
`ratio = to_rate / from_rate`). -/
theorem claim_C6_amended (b : Buf K) (f t : ℤ) :
    (f = t → resample_audio b f t = .ok b) ∧
    (f ≠ t → f = 0 → resample_audio b f t = .error .zeroDivisionError) := by
  constructor
  · intro h
    unfold resample_audio
    rw [if_pos h]
  · intro h h0
    unfold resample_audio
    rw [if_neg h, if_pos h0]

/-- Claim C6, witness for the amended theorem: equal negative rates
return the buffer, distinct rates with a zero original rate raise
`ZeroDivisionError`. -/
theorem claim_C6_witness :
    resample_audio (Buf.mono [(1 : ℚ)]) (-3) (-3) = .ok (Buf.mono [(1 : ℚ)]) ∧
    resample_audio (Buf.mono [(1 : ℚ)]) 0 2 = .error .zeroDivisionError :=
  ⟨(claim_C6_amended (Buf.mono [(1 : ℚ)]) (-3) (-3)).1 rfl,
   (claim_C6_amended (Buf.mono [(1 : ℚ)]) 0 2).2 (by decide) rfl⟩

/-- Claim C9, counterexample: a fade-in of 3 samples requested on a
2-frame buffer makes `apply_fade` raise (the numpy in-place multiply
`result[:3] *= curve` cannot broadcast a 3-element ramp onto 2 samples);
the fade is NOT clamped to the buffer length. -/
theorem claim_C9_counterexample :
    apply_fade (Buf.mono [(1 : ℝ), 1]) 3 0 1 = .error .valueError := by
  norm_num [apply_fade, fadeSamples, pyInt, fadeInStage, fadeOutStage, Buf.frames,
    Bind.bind, Except.bind]

/-- Claim C9, amended: a requested fade-in longer than the buffer
(excluding the degenerate broadcastable 1-sample fade) raises a
`ValueError` instead of being clamped; zero-length fades are no-ops that
return the buffer unchanged. -/
theorem claim_C9_amended (b : Buf K) (din dout : ℚ) (rate : ℕ) :
    (0 < fadeSamples din rate → b.frames < (fadeSamples din rate).toNat →
      fadeSamples din rate ≠ 1 →
      apply_fade b din dout rate = .error .valueError) ∧
    apply_fade b 0 0 rate = .ok b := by
  constructor
  · intro h1 h2 h3
    unfold apply_fade fadeInStage
    rw [if_neg (not_le.mpr h1), if_neg (by push_neg; exact ⟨h2, h3⟩)]
    simp [Bind.bind, Except.bind]
  · have h0 : fadeSamples 0 rate = 0 := by simp [fadeSamples, pyInt]
    unfold apply_fade
    rw [h0]
    simp [fadeInStage, fadeOutStage, Bind.bind, Except.bind]

/-- Claim C9, witness for the amended theorem at concrete inputs: the
3-sample fade on a 2-frame buffer errors, and the zero-length fade is the
identity. -/
theorem claim_C9_witness :
    apply_fade (Buf.mono [(1 : ℚ), 1]) 3 0 1 = .error .valueError ∧
    apply_fade (Buf.mono [(1 : ℚ), 1]) 0 0 1 = .ok (Buf.mono [(1 : ℚ), 1]) :=
  ⟨(claim_C9_amended (Buf.mono [(1 : ℚ), 1]) 3 0 1).1
      (by norm_num [fadeSamples, pyInt]) (by norm_num [fadeSamples, pyInt, Buf.frames])
      (by norm_num [fadeSamples, pyInt]),
   (claim_C9_amended (Buf.mono [(1 : ℚ), 1]) 0 0 1).2⟩

/-- Claim C10: `_apply_simple_delay` converts its delay time with a
HARDCODED 44100 Hz rate — `delaySamples time_ms = int(time_ms * 44100 /
1000)` and the function receives no sample-rate argument.  Part 1: every
output sample before the echo offset is pure dry signal `(1-wet)·x[j]`
(the first echo lands exactly `delaySamples time_ms` samples in,
regardless of the buffer's true rate).  Part 2: for any buffer rate other
than 44100 Hz, the echo spacing `delaySamples time_ms / rate` seconds
does not equal `time_ms` (stated when the sample conversion is exact, so
the mismatch is not a rounding artifact). -/
theorem claim_C10 :
    (∀ (audio : List K) (time_ms : ℚ) (feedback wet : K) (j : ℕ),
      j < audio.length → (j : ℤ) < delaySamples time_ms →
      (applySimpleDelayMono audio time_ms feedback wet).getD j 0 =
        (1 - wet) * audio.getD j 0) ∧
    (∀ time_ms : ℚ, 0 < time_ms →
      (delaySamples time_ms : ℚ) = time_ms * 44100 / 1000 →
      ∀ rate : ℕ, 0 < rate → rate ≠ 44100 →
      (delaySamples time_ms : ℚ) / (rate : ℚ) * 1000 ≠ time_ms) := by
  constructor
  · intro audio t fb wet j hj hjd
    have hds : ¬ delaySamples t ≤ 0 := by omega
    unfold applySimpleDelayMono
    rw [if_neg hds]
    have hjd2 : j < (delaySamples t).toNat := by omega
    have hsl : (shiftZero (delaySamples t).toNat audio).length = audio.length :=
      shiftZero_length _ _
    have hdl : (echoLoop audio (delaySamples t).toNat fb 5 0
        (shiftZero (delaySamples t).toNat audio)).length = audio.length := by
      rw [echoLoop_length _ _ _ _ _ _ hsl.symm, hsl]
    rw [getD_zipWith _ _ _ _ 0 0 j hj (by rw [hdl]; exact hj),
      echoLoop_getD _ _ _ _ _ _ j (by omega),
      shiftZero_getD_zero _ _ j hjd2 hj]
    ring
  · intro t ht hex r hr hrne heq
    have hr2 : ((r : ℚ)) ≠ 0 := Nat.cast_ne_zero.mpr hr.ne'
    rw [hex] at heq
    have h2 : t * 44100 = t * (r : ℚ) := by
      field_simp at heq
      linarith
    have h3 : (44100 : ℚ) = (r : ℚ) := mul_left_cancel₀ ht.ne' h2
    exact hrne (by exact_mod_cast h3.symm)

/-- Claim C10, witness at concrete inputs: with `time_ms = 10` the echo
offset is `int(10 * 44100/1000) = 441` samples independent of any rate,
the first output sample of a 2-sample buffer is pure scaled dry signal,
and at a true rate of 48000 Hz the spacing `441/48000` s is 9.1875 ms,
not 10 ms. -/
theorem claim_C10_witness :
    (applySimpleDelayMono [(5 : ℚ), 7] 10 (1 / 2) (1 / 4)).getD 0 0 =
      (1 - (1 / 4 : ℚ)) * ([(5 : ℚ), 7].getD 0 0) ∧
    (delaySamples 10 : ℚ) / ((48000 : ℕ) : ℚ) * 1000 ≠ 10 :=
  ⟨(claim_C10 (K := ℚ)).1 [(5 : ℚ), 7] 10 (1 / 2) (1 / 4) 0 (by norm_num)
      (by norm_num [delaySamples, pyInt]),
   (claim_C10 (K := ℚ)).2 10 (by norm_num) (by norm_num [delaySamples, pyInt])
      48000 (by norm_num) (by norm_num)⟩

/-- Claim C7: a nonempty track list in which every track is muted makes
`mix_tracks` raise `ValueError("No valid tracks to mix")` — the error the
spec's taxonomy names `NoValidTracksError` — with no buffer returned. -/
theorem claim_C7 (gl gr : ℚ → K) (tl : K) (ts : List (Track K))
    (hne : ts ≠ []) (hm : ∀ t ∈ ts, t.muted = true) :
    mix_tracks gl gr tl ts = .error .noValidTracks := by
  have hs : surviving ts = [] := by
    unfold surviving
    rw [List.filter_eq_nil_iff]
    intro t ht
    simp [hm t ht]
  unfold mix_tracks
  rw [if_neg (by simpa [List.isEmpty_iff] using hne),
    if_pos (by simp [hs, List.isEmpty_iff])]

/-- Claim C7, witness: a single muted track raises the no-valid-tracks
error. -/
theorem claim_C7_witness :
    mix_tracks (fun _ => (1 : ℚ)) (fun _ => 1) 1
      [⟨true, true, Buf.mono [1], 1, 100, 0, false⟩] = .error .noValidTracks :=
  claim_C7 _ _ _ _ (by simp)
    (by intro t ht; rw [List.mem_singleton] at ht; subst ht; rfl)

theorem sqrt_two_div_two_ne_one : Real.sqrt 2 / 2 ≠ (1 : ℝ) := by
  intro h
  have h2 : Real.sqrt 2 = 2 := by linarith
  have h3 : Real.sqrt 2 ^ 2 = 2 := Real.sq_sqrt (by norm_num)
  rw [h2] at h3
  norm_num at h3

/-- Claim C4, counterexample: in `mix_tracks`' pan stage the `pan == 0`
skip leaves the frame `(1, 1)` untouched, while applying the equal-power
law at pan 0 multiplies both channels by `cos(π/4) = sin(π/4) = √2/2 ≈
0.7071` — NOT unity — so the two are not numerically equivalent. -/
theorem claim_C4_counterexample :
    panStage (fun p : ℚ => Real.cos (((p : ℝ) + 1) * Real.pi / 4))
      (fun p : ℚ => Real.sin (((p : ℝ) + 1) * Real.pi / 4)) 0 [((1 : ℝ), 1)] ≠
    applyPan (Real.cos ((((0 : ℚ) : ℝ) + 1) * Real.pi / 4))
      (Real.sin ((((0 : ℚ) : ℝ) + 1) * Real.pi / 4)) [((1 : ℝ), 1)] := by
  have hskip : panStage (fun p : ℚ => Real.cos (((p : ℝ) + 1) * Real.pi / 4))
      (fun p : ℚ => Real.sin (((p : ℝ) + 1) * Real.pi / 4)) 0 [((1 : ℝ), 1)] =
      [((1 : ℝ), 1)] := by
    simp [panStage]
  rw [hskip]
  intro h
  have hc := congrArg (fun l : List (ℝ × ℝ) => (l.getD 0 (0, 0)).1) h
  simp only [applyPan, List.map_cons, List.map_nil, List.getD_cons_zero] at hc
  simp only [Rat.cast_zero, zero_add, one_mul, Real.cos_pi_div_four] at hc
  exact sqrt_two_div_two_ne_one (by linarith [hc])

/-- Claim C4, amended: skipping the pan stage at `pan == 0` is NOT
equivalent to applying the equal-power law there: the skip is the
identity, while the law at pan 0 scales both channels by
`cos(π/4) = sin(π/4) = √2/2`, which differs from unity. -/
theorem claim_C4_amended (xs : List (ℝ × ℝ)) :
    panStage (fun p : ℚ => Real.cos (((p : ℝ) + 1) * Real.pi / 4))
      (fun p : ℚ => Real.sin (((p : ℝ) + 1) * Real.pi / 4)) 0 xs = xs ∧
    applyPan (Real.cos ((((0 : ℚ) : ℝ) + 1) * Real.pi / 4))
      (Real.sin ((((0 : ℚ) : ℝ) + 1) * Real.pi / 4)) xs =
      xs.map (fun f => (f.1 * (Real.sqrt 2 / 2), f.2 * (Real.sqrt 2 / 2))) ∧
    Real.sqrt 2 / 2 ≠ (1 : ℝ) := by
  refine ⟨by simp [panStage], ?_, sqrt_two_div_two_ne_one⟩
  unfold applyPan
  simp only [Rat.cast_zero, zero_add, one_mul, Real.cos_pi_div_four,
    Real.sin_pi_div_four]

/-- Claim C4, witness for the amended theorem: the skip at pan 0 leaves a
concrete frame unchanged. -/
theorem claim_C4_witness :
    panStage (fun p : ℚ => Real.cos (((p : ℝ) + 1) * Real.pi / 4))
      (fun p : ℚ => Real.sin (((p : ℝ) + 1) * Real.pi / 4)) 0 [((2 : ℝ), 3)] =
      [((2 : ℝ), 3)] :=
  (claim_C4_amended [((2 : ℝ), 3)]).1

theorem foldl_maxabs_map_mul (g : K) :
    ∀ (xs : List K) (a : K),
      (xs.map (fun x => x * g)).foldl (fun m x => max m |x|) (a * |g|) =
        (xs.foldl (fun m x => max m |x|) a) * |g| := by
  intro xs
  induction xs with
  | nil => intro a; rfl
  | cons y ys ih =>
    intro a
    simp only [List.map_cons, List.foldl_cons]
    rw [abs_mul, ← max_mul_of_nonneg _ _ (abs_nonneg g)]
    exact ih (max a |y|)

theorem listPeak_map_mul (g : K) (xs : List K) :
    listPeak (xs.map (fun x => x * g)) = listPeak xs * |g| := by
  simpa [listPeak, zero_mul] using foldl_maxabs_map_mul g xs 0

theorem foldl_maxabs2_map_mul (g : K) :
    ∀ (xs : List (K × K)) (a : K),
      ((xs.map (fun f => (f.1 * g, f.2 * g))).foldl
          (fun m f => max (max m |f.1|) |f.2|) (a * |g|)) =
        (xs.foldl (fun m f => max (max m |f.1|) |f.2|) a) * |g| := by
  intro xs
  induction xs with
  | nil => intro a; rfl
  | cons y ys ih =>
    intro a
    simp only [List.map_cons, List.foldl_cons]
    rw [abs_mul, abs_mul, ← max_mul_of_nonneg _ _ (abs_nonneg g),
      ← max_mul_of_nonneg _ _ (abs_nonneg g)]
    exact ih (max (max a |y.1|) |y.2|)

theorem stereoPeak_map_mul (g : K) (xs : List (K × K)) :
    stereoPeak (xs.map (fun f => (f.1 * g, f.2 * g))) = stereoPeak xs * |g| := by
  simpa [stereoPeak, zero_mul] using foldl_maxabs2_map_mul g xs 0

theorem listPeak_nonneg (xs : List K) : 0 ≤ listPeak xs :=
  foldl_max_le_init (fun x => |x|) xs 0

theorem foldl_maxabs2_le_init :
    ∀ (xs : List (K × K)) (a : K),
      a ≤ xs.foldl (fun m f => max (max m |f.1|) |f.2|) a
  | [], _ => le_refl _
  | _ :: fs, a =>
    le_trans (le_trans (le_max_left a _) (le_max_left _ _))
      (foldl_maxabs2_le_init fs _)

theorem stereoPeak_nonneg (xs : List (K × K)) : 0 ≤ stereoPeak xs :=
  foldl_maxabs2_le_init xs 0

/-- Claim C8: `normalize_audio` on a nonempty buffer is the identity on
silence (peak 0) — no division error — and otherwise scales uniformly so
the output peak equals `10 ** (target_db / 20)` exactly (hence it never
exceeds that ceiling). -/
theorem claim_C8 (b : Buf ℝ) (target_db : ℝ) (hfr : b.frames ≠ 0) :
    (bufPeak b = 0 → normalize_audio b ((10 : ℝ) ^ (target_db / 20)) = .ok b) ∧
    (bufPeak b ≠ 0 →
      (normalize_audio b ((10 : ℝ) ^ (target_db / 20))).map bufPeak =
        .ok ((10 : ℝ) ^ (target_db / 20))) := by
  have hT : (0 : ℝ) < (10 : ℝ) ^ (target_db / 20) :=
    Real.rpow_pos_of_pos (by norm_num) _
  cases b with
  | mono xs =>
    simp only [Buf.frames] at hfr
    constructor
    · intro h0
      simp only [bufPeak] at h0
      simp [normalize_audio, normalizeList, hfr, h0, Except.map]
    · intro hp
      simp only [bufPeak] at hp
      simp only [normalize_audio, normalizeList, if_neg hfr, if_neg hp, Except.map,
        bufPeak]
      rw [listPeak_map_mul,
        abs_of_nonneg (div_nonneg hT.le (listPeak_nonneg xs)),
        mul_div_cancel₀ _ hp]
  | stereo xs =>
    simp only [Buf.frames] at hfr
    constructor
    · intro h0
      simp only [bufPeak] at h0
      simp [normalize_audio, normalizeStereo, hfr, h0, Except.map]
    · intro hp
      simp only [bufPeak] at hp
      simp only [normalize_audio, normalizeStereo, if_neg hfr, if_neg hp, Except.map,
        bufPeak]
      rw [stereoPeak_map_mul,
        abs_of_nonneg (div_nonneg hT.le (stereoPeak_nonneg xs)),
        mul_div_cancel₀ _ hp]

/-- Claim C8, witness at a concrete input: normalizing `[1/2]` to −3 dB
produces peak exactly `10^(−3/20)`. -/
theorem claim_C8_witness :
    (normalize_audio (Buf.mono [(1 / 2 : ℝ)]) ((10 : ℝ) ^ ((-3 : ℝ) / 20))).map
        bufPeak = .ok ((10 : ℝ) ^ ((-3 : ℝ) / 20)) :=
  (claim_C8 (Buf.mono [(1 / 2 : ℝ)]) (-3) (by norm_num [Buf.frames])).2
    (by norm_num [bufPeak, listPeak])

theorem resample_ok (b : Buf K) (f t : ℤ) (hf : 0 < f) (ht : 0 ≤ t)
    (hfr : 0 < b.frames) (hne : f ≠ t) :
    ∃ b2, resample_audio b f t = .ok b2 := by
  have hf2 : (0 : ℚ) < (f : ℚ) := by exact_mod_cast hf
  have ht2 : (0 : ℚ) ≤ (t : ℚ) := by exact_mod_cast ht
  have hq : (0 : ℚ) ≤ (b.frames : ℚ) * (t : ℚ) / (f : ℚ) :=
    div_nonneg (mul_nonneg (Nat.cast_nonneg _) ht2) hf2.le
  have hpy : ¬ (pyInt ((b.frames : ℚ) * (t : ℚ) / (f : ℚ)) < 0) :=
    not_lt.mpr (pyInt_nonneg hq)
  cases b with
  | mono xs =>
    unfold resample_audio
    rw [if_neg hne, if_neg hf.ne']
    simp only [Buf.frames] at hpy hfr ⊢
    rw [if_neg hpy, if_neg hfr.ne']
    exact ⟨_, rfl⟩
  | stereo xs =>
    unfold resample_audio
    rw [if_neg hne, if_neg hf.ne']
    simp only [Buf.frames] at hpy hfr ⊢
    rw [if_neg hpy, if_neg hfr.ne']
    exact ⟨_, rfl⟩

theorem contribution_ok (gl gr : ℚ → K) (R n : ℕ) (t : Track K)
    (hr : 0 < t.rate) (hfr : 0 < t.audio.frames) :
    ∃ c, contribution gl gr R n t = .ok c ∧ c.length = n := by
  by_cases hR : t.rate ≠ R
  · obtain ⟨b2, hb2⟩ := resample_ok t.audio (t.rate : ℤ) (R : ℤ)
      (by exact_mod_cast hr) (by exact_mod_cast Nat.zero_le R) hfr
      (by exact_mod_cast hR)
    refine ⟨fitLength n (scaleFrames (((t.volume / 100 : ℚ) : K))
      (panStage gl gr (t.pan / 100) (toStereo b2))), ?_, fitLength_length n _⟩
    simp [contribution, hR, hb2, Bind.bind, Except.bind]
  · refine ⟨fitLength n (scaleFrames (((t.volume / 100 : ℚ) : K))
      (panStage gl gr (t.pan / 100) (toStereo t.audio))), ?_, fitLength_length n _⟩
    simp [contribution, hR, Bind.bind, Except.bind]

theorem collectContribs_ok (gl gr : ℚ → K) (R n : ℕ) :
    ∀ (l : List (Track K)), (∀ t ∈ l, 0 < t.rate ∧ 0 < t.audio.frames) →
      ∃ cs, collectContribs gl gr R n l = .ok cs ∧ ∀ c ∈ cs, c.length = n := by
  intro l
  induction l with
  | nil => exact fun _ => ⟨[], rfl, by simp⟩
  | cons t l ih =>
    intro h
    obtain ⟨c, hc, hcl⟩ :=
      contribution_ok gl gr R n t (h t (by simp)).1 (h t (by simp)).2
    obtain ⟨cs, hcs, hcsl⟩ := ih (fun x hx => h x (by simp [hx]))
    refine ⟨c :: cs, ?_, ?_⟩
    · simp [collectContribs, hc, hcs, Bind.bind, Except.bind]
    · intro x hx
      rcases List.mem_cons.mp hx with h1 | h1
      · subst h1; exact hcl
      · exact hcsl x h1

theorem foldSum_length (n : ℕ) :
    ∀ (cs : List (List (K × K))) (init : List (K × K)), init.length = n →
      (∀ c ∈ cs, c.length = n) → (cs.foldl sumFrames init).length = n := by
  intro cs
  induction cs with
  | nil => intro init h _; simpa using h
  | cons c cs ih =>
    intro init h hc
    simp only [List.foldl_cons]
    refine ih _ ?_ (fun x hx => hc x (by simp [hx]))
    simp [sumFrames, List.length_zipWith, h, hc c (by simp)]

theorem normalizeStereo_ok (xs : List (K × K)) (tl : K) (h : xs.length ≠ 0) :
    ∃ ys, normalizeStereo xs tl = .ok ys ∧ ys.length = xs.length := by
  unfold normalizeStereo
  rw [if_neg h]
  exact ⟨_, rfl, by split <;> simp⟩

theorem le_outputLen (ts : List (Track K)) (t : Track K) (ht : t ∈ surviving ts)
    (hr : 0 < t.rate) : t.audio.frames ≤ outputLen ts := by
  have hrate : t.rate ≤ maxRate ts :=
    foldl_max_mem_le (fun t => t.rate) _ t ht 0
  have hdur : ((t.audio.frames : ℚ) / (t.rate : ℚ)) ≤ maxDur ts :=
    foldl_max_mem_le (fun t : Track K => ((t.audio.frames : ℚ) / (t.rate : ℚ)))
      _ t ht 0
  have hr2 : (0 : ℚ) < (t.rate : ℚ) := by exact_mod_cast hr
  have hd0 : (0 : ℚ) ≤ (t.audio.frames : ℚ) / (t.rate : ℚ) :=
    div_nonneg (Nat.cast_nonneg _) hr2.le
  have key : ((t.audio.frames : ℕ) : ℚ) ≤ maxDur ts * ((maxRate ts : ℕ) : ℚ) := by
    calc ((t.audio.frames : ℕ) : ℚ)
        = (t.audio.frames : ℚ) / (t.rate : ℚ) * (t.rate : ℚ) := by field_simp
      _ ≤ maxDur ts * (t.rate : ℚ) := mul_le_mul_of_nonneg_right hdur hr2.le
      _ ≤ maxDur ts * ((maxRate ts : ℕ) : ℚ) := by
          refine mul_le_mul_of_nonneg_left ?_ (le_trans hd0 hdur)
          exact_mod_cast hrate
  unfold outputLen
  exact le_pyInt_toNat key

theorem mix_tracks_eval (gl gr : ℚ → K) (tl : K) (ts : List (Track K))
    (h1 : surviving ts ≠ [])
    (h2 : ∀ t ∈ surviving ts, 0 < t.rate ∧ 0 < t.audio.frames) :
    ∃ mixed, mix_tracks gl gr tl ts = .ok (mixed, maxRate ts) ∧
      mixed.frames = outputLen ts := by
  have hts : ts ≠ [] := by
    intro h
    exact h1 (by simp [surviving, h])
  obtain ⟨t0, ht0⟩ := List.exists_mem_of_ne_nil _ h1
  have hout : 0 < outputLen ts :=
    lt_of_lt_of_le (h2 t0 ht0).2 (le_outputLen ts t0 ht0 (h2 t0 ht0).1)
  obtain ⟨cs, hcs, hcsl⟩ :=
    collectContribs_ok gl gr (maxRate ts) (outputLen ts) (contributors ts)
      (fun t ht => h2 t (List.mem_of_mem_filter ht))
  have hmixlen :
      (cs.foldl sumFrames (List.replicate (outputLen ts) ((0 : K), (0 : K)))).length
        = outputLen ts :=
    foldSum_length _ cs _ (by simp) hcsl
  obtain ⟨ys, hys, hysl⟩ := normalizeStereo_ok
    (cs.foldl sumFrames (List.replicate (outputLen ts) ((0 : K), (0 : K)))) tl
    (by omega)
  refine ⟨Buf.stereo ys, ?_, by rw [Buf.frames, hysl]; exact hmixlen⟩
  unfold mix_tracks
  rw [if_neg (by simpa [List.isEmpty_iff] using hts),
    if_neg (by simpa [List.isEmpty_iff] using h1)]
  simp only [Bind.bind, Except.bind, hcs, normalize_audio, hys, Except.map]

/-- Claim C1, counterexample: two unmuted readable tracks, the first
soloed at rate 1 with 1 frame, the second not soloed at rate 2 with 4
frames.  `mix_tracks` returns sample rate 2 — the maximum over ALL
surviving tracks, computed in the first pass before the solo filter —
while the claim demands the post-solo-filter maximum, which is 1. -/
theorem claim_C1_counterexample :
    (mix_tracks (fun p : ℚ => Real.cos (((p : ℝ) + 1) * Real.pi / 4))
        (fun p : ℚ => Real.sin (((p : ℝ) + 1) * Real.pi / 4))
        ((10 : ℝ) ^ ((-3 : ℝ) / 20))
        [⟨false, true, Buf.mono [(1 : ℝ)], 1, 100, 0, true⟩,
         ⟨false, true, Buf.mono [(0 : ℝ), 0, 0, 0], 2, 100, 0, false⟩]).map
      (fun r => r.2) = .ok 2 ∧
    specOutputRate
      [(⟨false, true, Buf.mono [(1 : ℝ)], 1, 100, 0, true⟩ : Track ℝ),
       ⟨false, true, Buf.mono [(0 : ℝ), 0, 0, 0], 2, 100, 0, false⟩] = 1 ∧
    (2 : ℕ) ≠ 1 := by
  refine ⟨?_, ?_, by norm_num⟩
  · obtain ⟨mixed, hm, _⟩ := mix_tracks_eval
      (fun p : ℚ => Real.cos (((p : ℝ) + 1) * Real.pi / 4))
      (fun p : ℚ => Real.sin (((p : ℝ) + 1) * Real.pi / 4))
      ((10 : ℝ) ^ ((-3 : ℝ) / 20))
      [⟨false, true, Buf.mono [(1 : ℝ)], 1, 100, 0, true⟩,
       ⟨false, true, Buf.mono [(0 : ℝ), 0, 0, 0], 2, 100, 0, false⟩]
      (by simp [surviving])
      (by
        intro t ht
        simp [surviving] at ht
        rcases ht with h | h <;> subst h <;>
          exact ⟨by norm_num, by norm_num [Buf.frames]⟩)
    rw [hm]
    simp only [Except.map]
    norm_num [maxRate, surviving, max_def]
  · norm_num [specOutputRate, contributors, soloActive, surviving, max_def]

/-- Claim C1, amended: for a mix with surviving (unmuted, readable,
nonempty, positive-rate) tracks, the returned sample rate is the maximum
over ALL surviving tracks BEFORE the solo filter, and the output frame
count is `int(max duration over those pre-solo tracks * that rate)`
(truncation, not round); solo-excluded tracks still contribute to both. -/
theorem claim_C1_amended (gl gr : ℚ → K) (tl : K) (ts : List (Track K))
    (h1 : surviving ts ≠ [])
    (h2 : ∀ t ∈ surviving ts, 0 < t.rate ∧ 0 < t.audio.frames) :
    (mix_tracks gl gr tl ts).map (fun r => r.2) = .ok (maxRate ts) ∧
    (mix_tracks gl gr tl ts).map (fun r => r.1.frames) = .ok (outputLen ts) := by
  obtain ⟨mixed, hm, hlen⟩ := mix_tracks_eval gl gr tl ts h1 h2
  rw [hm]
  exact ⟨rfl, by simp [Except.map, hlen]⟩

/-- Claim C1, witness for the amended theorem: a single surviving track
of 1 frame at rate 1 yields that rate and `int(1 * 1) = 1` frame. -/
theorem claim_C1_witness :
    (mix_tracks (fun _ => (1 : ℚ)) (fun _ => 1) 1
        [⟨false, true, Buf.mono [(1 : ℚ)], 1, 100, 0, false⟩]).map
      (fun r => r.2) =
      .ok (maxRate [(⟨false, true, Buf.mono [(1 : ℚ)], 1, 100, 0, false⟩ : Track ℚ)]) ∧
    (mix_tracks (fun _ => (1 : ℚ)) (fun _ => 1) 1
        [⟨false, true, Buf.mono [(1 : ℚ)], 1, 100, 0, false⟩]).map
      (fun r => r.1.frames) =
      .ok (outputLen [(⟨false, true, Buf.mono [(1 : ℚ)], 1, 100, 0, false⟩ : Track ℚ)]) :=
  claim_C1_amended (fun _ => (1 : ℚ)) (fun _ => 1) 1
    [⟨false, true, Buf.mono [(1 : ℚ)], 1, 100, 0, false⟩]
    (by simp [surviving])
    (by
      intro t ht
      simp [surviving] at ht
      subst ht
      exact ⟨by norm_num, by norm_num [Buf.frames]⟩)

/-- Claim C3, counterexample: three unmuted readable tracks with exactly
the first soloed (rate 1, 1 frame); the others have rate 2 / 4 frames and
rate 1 / 1 frame.  Mixing the full list returns sample rate 2 (the
pre-solo maximum), while mixing the soloed track alone returns rate 1 —
the outputs are not identical, contradicting "including identical output
sample rate and frame count". -/
theorem claim_C3_counterexample :
    (mix_tracks (fun p : ℚ => Real.cos (((p : ℝ) + 1) * Real.pi / 4))
        (fun p : ℚ => Real.sin (((p : ℝ) + 1) * Real.pi / 4))
        ((10 : ℝ) ^ ((-3 : ℝ) / 20))
        [⟨false, true, Buf.mono [(1 : ℝ)], 1, 100, 0, true⟩,
         ⟨false, true, Buf.mono [(0 : ℝ), 0, 0, 0], 2, 100, 0, false⟩,
         ⟨false, true, Buf.mono [(0 : ℝ)], 1, 100, 0, false⟩]).map
      (fun r => r.2) = .ok 2 ∧
    (mix_tracks (fun p : ℚ => Real.cos (((p : ℝ) + 1) * Real.pi / 4))
        (fun p : ℚ => Real.sin (((p : ℝ) + 1) * Real.pi / 4))
        ((10 : ℝ) ^ ((-3 : ℝ) / 20))
        [⟨false, true, Buf.mono [(1 : ℝ)], 1, 100, 0, true⟩]).map
      (fun r => r.2) = .ok 1 ∧
    (2 : ℕ) ≠ 1 := by
  refine ⟨?_, ?_, by norm_num⟩
  · obtain ⟨mixed, hm, _⟩ := mix_tracks_eval
      (fun p : ℚ => Real.cos (((p : ℝ) + 1) * Real.pi / 4))
      (fun p : ℚ => Real.sin (((p : ℝ) + 1) * Real.pi / 4))
      ((10 : ℝ) ^ ((-3 : ℝ) / 20))
      [⟨false, true, Buf.mono [(1 : ℝ)], 1, 100, 0, true⟩,
       ⟨false, true, Buf.mono [(0 : ℝ), 0, 0, 0], 2, 100, 0, false⟩,
       ⟨false, true, Buf.mono [(0 : ℝ)], 1, 100, 0, false⟩]
      (by simp [surviving])
      (by
        intro t ht
        simp [surviving] at ht
        rcases ht with h | h | h <;> subst h <;>
          exact ⟨by norm_num, by norm_num [Buf.frames]⟩)
    rw [hm]
    simp only [Except.map]
    norm_num [maxRate, surviving, max_def]
  · obtain ⟨mixed, hm, _⟩ := mix_tracks_eval
      (fun p : ℚ => Real.cos (((p : ℝ) + 1) * Real.pi / 4))
      (fun p : ℚ => Real.sin (((p : ℝ) + 1) * Real.pi / 4))
      ((10 : ℝ) ^ ((-3 : ℝ) / 20))
      [⟨false, true, Buf.mono [(1 : ℝ)], 1, 100, 0, true⟩]
      (by simp [surviving])
      (by
        intro t ht
        simp [surviving] at ht
        subst ht
        exact ⟨by norm_num, by norm_num [Buf.frames]⟩)
    rw [hm]
    simp only [Except.map]
    norm_num [maxRate, surviving, max_def]

/-- Claim C3, amended: if exactly one surviving track `S` is soloed AND
`S` attains both the maximum sample rate and the maximum duration over
ALL surviving tracks (the condition the original claim is missing), then
mixing the full list is identical — rate, frame count and every sample,
even after normalization — to mixing `[S]` alone. -/
theorem claim_C3_amended (gl gr : ℚ → K) (tl : K) (ts : List (Track K))
    (S : Track K)
    (hsolo : (surviving ts).filter (fun t => t.solo) = [S])
    (hrate : S.rate = maxRate ts)
    (hdur : (S.audio.frames : ℚ) / (S.rate : ℚ) = maxDur ts) :
    mix_tracks gl gr tl ts = mix_tracks gl gr tl [S] := by
  have hSmem : S ∈ (surviving ts).filter (fun t => t.solo) := by
    rw [hsolo]
    exact List.mem_singleton_self S
  have hSsurv : S ∈ surviving ts := List.mem_of_mem_filter hSmem
  have hSsolo : S.solo = true := by simpa using (List.mem_filter.mp hSmem).2
  have hSsurv2 : S ∈ ts.filter (fun t => !t.muted && t.filePresent) := hSsurv
  have hSpass : (!S.muted && S.filePresent) = true := (List.mem_filter.mp hSsurv2).2
  have hts : ts ≠ [] := List.ne_nil_of_mem (List.mem_of_mem_filter hSsurv2)
  have hsurvne : surviving ts ≠ [] := List.ne_nil_of_mem hSsurv
  have hsa : soloActive ts = true := by
    unfold soloActive
    rw [List.any_eq_true]
    exact ⟨S, hSsurv, hSsolo⟩
  have hcontr : contributors ts = [S] := by
    unfold contributors
    rw [hsa]
    simpa using hsolo
  have hsurv1 : surviving [S] = [S] := by
    unfold surviving
    simp [List.filter_cons_of_pos, hSpass]
  have hsurvne1 : surviving [S] ≠ [] := by
    rw [hsurv1]
    exact List.cons_ne_nil S []
  have hsa1 : soloActive [S] = true := by
    unfold soloActive
    rw [hsurv1]
    simp [hSsolo]
  have hcontr1 : contributors [S] = [S] := by
    unfold contributors
    rw [hsa1, hsurv1]
    simp [hSsolo]
  have hrate1 : maxRate [S] = S.rate := by
    unfold maxRate
    rw [hsurv1]
    simp
  have hdur1 : maxDur [S] = (S.audio.frames : ℚ) / (S.rate : ℚ) := by
    unfold maxDur
    rw [hsurv1]
    simp only [List.foldl_cons, List.foldl_nil]
    exact max_eq_right (div_nonneg (Nat.cast_nonneg _) (Nat.cast_nonneg _))
  have hout : outputLen [S] = outputLen ts := by
    unfold outputLen
    rw [hrate1, hdur1, hdur, hrate]
  unfold mix_tracks
  rw [if_neg (by simpa [List.isEmpty_iff] using hts),
    if_neg (by simpa [List.isEmpty_iff] using hsurvne),
    if_neg (by simp [List.isEmpty_iff]),
    if_neg (by simpa [List.isEmpty_iff] using hsurvne1)]
  rw [hcontr, hcontr1, hrate1, hrate, hout]

/-- Claim C3, witness for the amended theorem at a concrete input: three
unmuted readable tracks with exactly the middle one soloed; the soloed
track attains the maximum rate (2) and duration (1 s), and the full mix
equals the solo-only mix. -/
theorem claim_C3_witness :
    mix_tracks (fun _ => (1 : ℚ)) (fun _ => 1) 1
      [⟨false, true, Buf.mono [(1 : ℚ)], 1, 100, 0, false⟩,
       ⟨false, true, Buf.mono [(1 : ℚ), 1], 2, 100, 0, true⟩,
       ⟨false, true, Buf.mono [(0 : ℚ)], 2, 100, 0, false⟩] =
    mix_tracks (fun _ => (1 : ℚ)) (fun _ => 1) 1
      [⟨false, true, Buf.mono [(1 : ℚ), 1], 2, 100, 0, true⟩] :=
  claim_C3_amended (fun _ => (1 : ℚ)) (fun _ => 1) 1
    [⟨false, true, Buf.mono [(1 : ℚ)], 1, 100, 0, false⟩,
     ⟨false, true, Buf.mono [(1 : ℚ), 1], 2, 100, 0, true⟩,
     ⟨false, true, Buf.mono [(0 : ℚ)], 2, 100, 0, false⟩]
    ⟨false, true, Buf.mono [(1 : ℚ), 1], 2, 100, 0, true⟩
    (by simp [surviving])
    (by norm_num [maxRate, surviving, max_def])
    (by norm_num [maxDur, surviving, Buf.frames, max_def])

/-- Claim C2, counterexample: the reverb is NOT deterministic.  Two runs
of `_apply_simple_reverb` on the identical buffer `[1]` with identical
parameters (`decay = 2/48000`, `wet = 1/2`) but different draws of the
unseeded `np.random.random` stream produce different output buffers, so
the effects chain is not a function of its buffer and parameter inputs
alone. -/
theorem claim_C2_counterexample :
    applySimpleReverbMono [(1 : ℝ)] (2 / 48000) (1 / 2) Real.exp (fun _ => 1) ≠
    applySimpleReverbMono [(1 : ℝ)] (2 / 48000) (1 / 2) Real.exp
      (fun j => if j = 0 then 1 else 0) := by
  have hnz : pyInt ((2 / 48000 : ℚ) * 48000) = 2 := by norm_num [pyInt]
  have htn : (2 : ℤ).toNat = 2 := rfl
  have hr2 : List.range 2 = [0, 1] := rfl
  have h1 : applySimpleReverbMono [(1 : ℝ)] (2 / 48000) (1 / 2) Real.exp
      (fun _ => 1) = .ok [1 / 2 + (1 / 2) * (1 + Real.exp (-10))⁻¹] := by
    simp only [applySimpleReverbMono, hnz, htn, hr2]
    norm_num [linspace, hr2, List.getD_cons_zero, List.getD_cons_succ,
      Finset.sum_range_one, convFull, Real.exp_zero,
      List.sum_cons, List.sum_nil, List.getD, List.getElem?_cons_zero,
      List.getElem?_cons_succ, Option.getD_some]
  have h2 : applySimpleReverbMono [(1 : ℝ)] (2 / 48000) (1 / 2) Real.exp
      (fun j => if j = 0 then 1 else 0) = .ok [1] := by
    simp only [applySimpleReverbMono, hnz, htn, hr2]
    norm_num [linspace, hr2, List.getD_cons_zero, List.getD_cons_succ,
      Finset.sum_range_one, convFull, Real.exp_zero,
      List.sum_cons, List.sum_nil, List.getD, List.getElem?_cons_zero,
      List.getElem?_cons_succ, Option.getD_some]
  intro h
  rw [h1, h2] at h
  simp only [Except.ok.injEq, List.cons.injEq, and_true] at h
  have he : 0 < Real.exp (-10) := Real.exp_pos _
  have h3 : (1 + Real.exp (-10))⁻¹ = 1 := by linarith
  have h4 : (1 + Real.exp (-10)) * (1 + Real.exp (-10))⁻¹ = 1 :=
    mul_inv_cancel₀ (by positivity)
  rw [h3, mul_one] at h4
  linarith

/-- Claim C2, amended: every modelled operation of the engine other than
the reverb is a pure function of its buffer and parameter inputs — in
particular the whole effects chain is independent of the random stream
whenever the reverb stage is inactive (absent, or failing its
`decay > 0 and wet > 0` guard).  The reverb itself is the sole
nondeterministic operation: it consumes the unseeded `np.random.random`
stream (see the counterexample). -/
theorem claim_C2_amended (pow10 expf : K → K) (rng1 rng2 : ℕ → K)
    (cfg : EffectsCfg K) (audio : List K) (h : reverbInactive cfg) :
    applySimpleEffectsMono pow10 expf rng1 cfg audio =
      applySimpleEffectsMono pow10 expf rng2 cfg audio := by
  cases hrv : cfg.reverb with
  | none => simp only [applySimpleEffectsMono, hrv]
  | some dw =>
    have hguard : ¬ (0 < dw.1 ∧ 0 < dw.2) := h dw.1 dw.2 (by rw [hrv])
    simp only [applySimpleEffectsMono, hrv, if_neg hguard]

/-- Claim C2, witness for the amended theorem: a reverb-free effects
configuration gives identical results under two different random
streams. -/
theorem claim_C2_witness :
    applySimpleEffectsMono (fun x => x) (fun x => x) (fun _ => (0 : ℚ))
      ⟨none, none, none, false⟩ [1] =
    applySimpleEffectsMono (fun x => x) (fun x => x) (fun _ => (1 : ℚ))
      ⟨none, none, none, false⟩ [1] :=
  claim_C2_amended (fun x => x) (fun x => x) (fun _ => (0 : ℚ)) (fun _ => 1)
    ⟨none, none, none, false⟩ [1] (fun d w hw => by cases hw)

end AIComposer
